import Mathlib

/-!
Shallow embedding of `constrained_linear_regression/constrained_multi_layer_perceptron.py`.

Machine floating-point values are modelled as rationals extended with the two
infinities: `⊥` models `-inf` and `⊤` models `+inf`.  Loss values, which the
loop multiplies and divides, are modelled as plain rationals.  The external
collaborator (parameter initialization, forward/backward propagation, the
stochastic optimizers, validation scoring) is modelled as a structure of
abstract pure operations, so every theorem below holds for every behaviour of
that collaborator.  Parts of this repository that are imported but whose file
is not available (`base.py`: `_verify_coef`, `_initialize`,
`_update_no_improvement_count`) are modelled from the specification and are
marked as such in their doc comments.
-/

namespace CMLP

/-- Values: rationals with `-inf` (`⊥`) and `+inf` (`⊤`), modelling floats. -/
abbrev Val : Type := WithBot (WithTop ℚ)

/-- Embed a finite rational as a value. -/
def qv (q : ℚ) : Val := ((q : WithTop ℚ) : Val)

/-- Project a value back to a rational (infinities go to `0`). -/
def valToQ (v : Val) : ℚ := WithTop.untop' 0 (WithBot.unbot' 0 v)

/-- A value is finite when it is neither infinity (model of `np.isfinite`). -/
def valFinite (v : Val) : Bool := decide (v ≠ ⊥) && decide (v ≠ ⊤)

/-- `np.clip(x, lo, hi)`, which numpy documents as
`minimum(maximum(x, lo), hi)`. -/
def npClip (x lo hi : Val) : Val := min (max x lo) hi

/-- Integer `np.clip`, used for the batch size at line 169. -/
def npClipInt (x lo hi : Int) : Int := min (max x lo) hi

/-- A sample row or a bias vector. -/
abbrev Row : Type := List Val

/-- Elementwise clip of one row of the first weight matrix against the scalar
bounds of its input feature (line 257). -/
def clipRow (lo hi : Val) (row : Row) : Row := row.map (fun x => npClip x lo hi)

/-- `_update_coef_using_constrain`, lines 254-257: iterate over
`zip(self.min_coef_, self.max_coef_)` and clip row `coef_idx` of the first
weight matrix; rows beyond the zipped bounds are left untouched. -/
def updateCoefUsingConstrain : List Val → List Val → List Row → List Row
  | lo :: los, hi :: his, row :: rows =>
      clipRow lo hi row :: updateCoefUsingConstrain los his rows
  | _, _, rows => rows

/-- The parameters handled by the loop: `self.coefs_ + self.intercepts_`
(line 120).  `params[0]` is the first weight matrix, whose rows are indexed by
input feature. -/
structure ParamsP where
  coefs : List (List Row)
  intercepts : List Row
deriving DecidableEq

/-- `_update_coef_using_constrain` applied to the parameter list: only
`params[0]`, the first weight matrix, is touched.  `coefs` is never empty in a
real fit (there are at least two layers), so the clip always lands on a weight
matrix and never on an intercept vector. -/
def updateCoefUsingConstrainP (minC maxC : List Val) (p : ParamsP) : ParamsP :=
  match p.coefs with
  | [] => p
  | c0 :: rest => { p with coefs := updateCoefUsingConstrain minC maxC c0 :: rest }

/-- Every entry of the row lies in the closed interval of its feature. -/
def rowInBounds (lo hi : Val) (row : Row) : Bool :=
  row.all (fun x => decide (lo ≤ x) && decide (x ≤ hi))

/-- Rows of the first matrix paired with bound vectors all lie in bounds. -/
def matInBounds : List Val → List Val → List Row → Bool
  | lo :: los, hi :: his, row :: rows =>
      rowInBounds lo hi row && matInBounds los his rows
  | _, _, _ => true

/-- The first weight matrix of the parameters respects the bound vectors. -/
def firstCoefInBounds (minC maxC : List Val) (p : ParamsP) : Bool :=
  match p.coefs with
  | [] => true
  | c0 :: _ => matInBounds minC maxC c0

/-- The bound vectors are pairwise ordered, `min_coef[i] <= max_coef[i]`. -/
def boundsOk : List Val → List Val → Bool
  | lo :: los, hi :: his => decide (lo ≤ hi) && boundsOk los his
  | _, _ => true

/-- The finiteness test of lines 98-104: every entry of every coefficient
matrix and every intercept vector is finite. -/
def paramsFinite (p : ParamsP) : Bool :=
  p.coefs.all (fun m => m.all (fun row => row.all valFinite)) &&
    p.intercepts.all (fun row => row.all valFinite)

/-- The external collaborator: optimizer construction and update rule,
forward/backward propagation, per-iteration learning-rate bookkeeping, the
stopping trigger, validation scoring, and parameter initialization.  All are
abstract pure operations over an abstract optimizer state `O`. -/
structure Framework (O : Type) where
  initOptimizer : ParamsP → O
  backprop : ParamsP → List Row → List Row → ℚ × ParamsP
  updateParams : O → ParamsP → ParamsP → O × ParamsP
  iterationEnds : O → Nat → O
  triggerStopping : O → Bool × O
  score : ParamsP → List Row → List Row → ℚ
  initParams : Nat → List Int → ParamsP

/-- The hyperparameters read by the constrained training loop.
`batchSize = none` models `batch_size="auto"`. -/
structure HyperParams where
  hiddenLayerSizes : List Int
  maxIter : Nat
  batchSize : Option Int
  tol : ℚ
  nIterNoChange : Nat
  earlyStopping : Bool
  validationFraction : ℚ
  randomState : Nat

/-- The mutable attributes threaded through `_fit_constrained_stochastic`. -/
structure LoopState (O : Type) where
  params : ParamsP
  opt : O
  nIter : Nat
  t : Nat
  loss : ℚ
  lossCurve : List ℚ
  noImprove : Nat
  bestValScore : Option ℚ
  bestLoss : Option ℚ
  best : ParamsP
  warnings : List String
deriving DecidableEq

/-- `X[batch_slice]` for a `(start, stop)` slice. -/
def sliceL {α : Type} (xs : List α) (sl : Nat × Nat) : List α :=
  (xs.drop sl.1).take (sl.2 - sl.1)

/-- Body of sklearn `gen_batches(n, batch_size)` (with `min_batch_size = 0`):
`steps` counts the iterations of `for _ in range(0, n, batch_size)`; a full
batch is yielded whenever `start + batch_size <= n`, and the final partial
batch is yielded after the loop when `start < n`. -/
def genBatchesGo (n bs : Nat) : Nat → Nat → List (Nat × Nat)
  | start, 0 => if start < n then [(start, n)] else []
  | start, steps + 1 =>
      if start + bs ≤ n then (start, start + bs) :: genBatchesGo n bs (start + bs) steps
      else genBatchesGo n bs start steps

/-- sklearn `gen_batches(n, batch_size)`: the batch slices used at line 175.
`len(range(0, n, batch_size))` is `(n + batch_size - 1) / batch_size`. -/
def gen_batches (n bs : Nat) : List (Nat × Nat) :=
  genBatchesGo n bs 0 ((n + bs - 1) / bs)

/-- Lines 161-169: resolve `"auto"` to `min(200, n_samples)`, otherwise warn
when the configured size is out of `[1, n_samples]` and clip it into range.
Returns the batch size together with the emitted-warning flag. -/
def computeBatchSize (batchSize : Option Int) (nSamples : Nat) : Nat × Bool :=
  match batchSize with
  | none => (min 200 nSamples, false)
  | some b =>
      (Int.toNat (npClipInt b 1 (nSamples : Int)),
        decide (b < 1) || decide ((nSamples : Int) < b))

def batchSizeWarnMsg : String :=
  "Got batch_size less than 1 or larger than sample size. It is going to be clipped"

def interruptMsg : String := "Training interrupted by user."

def maxIterMsg : String :=
  "Stochastic Optimizer: Maximum iterations reached and the optimization has not converged yet."

def nonFiniteMsg : String :=
  "Solver produced non-finite parameter weights. The input data may contain large values and need to be preprocessed."

def hiddenLayerErrMsg : String := "hidden_layer_sizes must be greater than 0."

def coefShapeErrMsg : String := "Incorrect shape for coefficient bounds."

/-- The ceiling of `n * q`, computed on the numerator and denominator of `q`. -/
def ceilMul (n : Nat) (q : ℚ) : Nat :=
  Int.toNat (((n : Int) * q.num + (q.den : Int) - 1) / (q.den : Int))

/-- Modelled from the spec and the framework: `train_test_split` at lines
146-151 is called WITHOUT `random_state`, so with its default shuffling it
draws from the interpreter-global random generator, modelled here by the
explicit `globalRng` argument (a value that is not among the inputs of `fit`).
The generator selects a permutation (modelled as a rotation) of the samples;
the first `ceil(n * test_size)` permuted samples form the validation set and
the rest form the training set. -/
def trainTestSplit (globalRng : Nat) (testSize : ℚ) (X y : List Row) :
    List Row × List Row × List Row × List Row :=
  let n := X.length
  let nTest := ceilMul n testSize
  let r := if n = 0 then 0 else globalRng % n
  let Xp := X.rotate r
  let yp := y.rotate r
  (Xp.drop nTest, Xp.take nTest, yp.drop nTest, yp.take nTest)

/-- Lines 141-156: with early stopping the data is split into a training part
and a held-out validation part; otherwise the validation part is `None`. -/
def splitForFit (hp : HyperParams) (globalRng : Nat) (X y : List Row) :
    (List Row × List Row) × Option (List Row × List Row) :=
  if hp.earlyStopping then
    let s := trainTestSplit globalRng hp.validationFraction X y
    ((s.1, s.2.2.1), some (s.2.1, s.2.2.2))
  else ((X, y), none)

/-- The state folded through the batches of one epoch:
accumulated loss, optimizer state, parameters. -/
abbrev BatchState (O : Type) : Type := ℚ × O × ParamsP

/-- Lines 177-196, one mini-batch: slice the batch, run the external
forward/backward pass, accumulate the loss weighted by the batch length, apply
the external optimizer update to all parameters, and only then clip the first
weight matrix with `_update_coef_using_constrain`. -/
def batchStep (fw : Framework O) (minC maxC : List Val) (X y : List Row) :
    BatchState O → Nat × Nat → BatchState O :=
  fun st sl =>
    let bp := fw.backprop st.2.2 (sliceL X sl) (sliceL y sl)
    let acc := st.1 + bp.1 * ((sl.2 - sl.1 : Nat) : ℚ)
    let up := fw.updateParams st.2.1 st.2.2 bp.2
    (acc, up.1, updateCoefUsingConstrainP minC maxC up.2)

/-- Modelled from the spec: the unconstrained baseline mini-batch step, which
is the same step without the clipping call. -/
def batchStepBase (fw : Framework O) (X y : List Row) :
    BatchState O → Nat × Nat → BatchState O :=
  fun st sl =>
    let bp := fw.backprop st.2.2 (sliceL X sl) (sliceL y sl)
    let acc := st.1 + bp.1 * ((sl.2 - sl.1 : Nat) : ℚ)
    let up := fw.updateParams st.2.1 st.2.2 bp.2
    (acc, up.1, up.2)

/-- The mini-batch step as claim C3 words it: overwrite the first layer of the
GRADIENTS in place before the optimizer applies them. -/
def batchStepClipGradsFirst (fw : Framework O) (minC maxC : List Val) (X y : List Row) :
    BatchState O → Nat × Nat → BatchState O :=
  fun st sl =>
    let bp := fw.backprop st.2.2 (sliceL X sl) (sliceL y sl)
    let acc := st.1 + bp.1 * ((sl.2 - sl.1 : Nat) : ℚ)
    let grads := updateCoefUsingConstrainP minC maxC bp.2
    let up := fw.updateParams st.2.1 st.2.2 grads
    (acc, up.1, up.2)

/-- The mini-batch step as the amended claim words it: the raw gradients from
backpropagation are handed unmodified to the optimizer, and the clip is
applied to the PARAMETERS produced by the optimizer update. -/
def batchStepClipParamsAfter (fw : Framework O) (minC maxC : List Val) (X y : List Row) :
    BatchState O → Nat × Nat → BatchState O :=
  fun st sl =>
    let bp := fw.backprop st.2.2 (sliceL X sl) (sliceL y sl)
    let acc := st.1 + bp.1 * ((sl.2 - sl.1 : Nat) : ℚ)
    let raw := fw.updateParams st.2.1 st.2.2 bp.2
    (acc, raw.1, updateCoefUsingConstrainP minC maxC raw.2)

/-- Modelled from the spec (the base class file is not available):
`_update_no_improvement_count`.  With early stopping the validation score of
the current parameters is compared against the best score so far (initially
minus infinity, modelled by `none`): the counter grows when the score fails to
beat it by `tol`, and on a strict improvement the current parameters are
snapshotted as the best-so-far parameters.  Without early stopping the last
training loss plays the same role against the best loss so far (initially plus
infinity, modelled by `none`) and no snapshot is taken.
Returns `(count, bestValScore, bestLoss, best)`. -/
def updateNoImprovementCount (fw : Framework O) (tol : ℚ) (earlyStopping : Bool)
    (valData : Option (List Row × List Row)) (params : ParamsP) (lastLoss : ℚ)
    (count : Nat) (bestValScore bestLoss : Option ℚ) (best : ParamsP) :
    Nat × Option ℚ × Option ℚ × ParamsP :=
  if earlyStopping then
    let vd := valData.getD ([], [])
    let sc := fw.score params vd.1 vd.2
    match bestValScore with
    | none => (0, some sc, bestLoss, params)
    | some b =>
        let c := if sc < b + tol then count + 1 else 0
        if b < sc then (c, some sc, bestLoss, params)
        else (c, some b, bestLoss, best)
  else
    match bestLoss with
    | none => (0, bestValScore, some lastLoss, best)
    | some bl =>
        let c := if bl - tol < lastLoss then count + 1 else 0
        (c, bestValScore, some (min bl lastLoss), best)

/-- Lines 174-211 of one epoch: fold the mini-batch step over the batch
slices, then update the iteration counters, the mean epoch loss, the loss
curve, the no-improvement bookkeeping, and let the optimizer end the
iteration. -/
def epochCore (fw : Framework O) (hp : HyperParams) (earlyStopping : Bool)
    (bstep : BatchState O → Nat × Nat → BatchState O)
    (n batchSize : Nat) (valData : Option (List Row × List Row))
    (st : LoopState O) : LoopState O :=
  let r := (gen_batches n batchSize).foldl bstep ((0 : ℚ), st.opt, st.params)
  let loss := r.1 / (n : ℚ)
  let t := st.t + n
  let u := updateNoImprovementCount fw hp.tol earlyStopping valData r.2.2 loss
    st.noImprove st.bestValScore st.bestLoss st.best
  { st with
    params := r.2.2
    opt := fw.iterationEnds r.2.1 t
    nIter := st.nIter + 1
    t := t
    loss := loss
    lossCurve := st.lossCurve ++ [loss]
    noImprove := u.1
    bestValScore := u.2.1
    bestLoss := u.2.2.1
    best := u.2.2.2 }

/-- Lines 238-243: once `self.n_iter_` reaches `max_iter`, warn that the
optimization has not converged; the epoch continues (no break). -/
def maxIterCheck (hp : HyperParams) (st : LoopState O) : LoopState O × Bool :=
  if st.nIter = hp.maxIter then
    ({ st with warnings := st.warnings ++ [maxIterMsg] }, false)
  else (st, false)

/-- Lines 213-243: when the no-improvement count exceeds `n_iter_no_change`,
ask the optimizer to trigger stopping; on `True` break out of the epoch loop,
otherwise (the optimizer decayed its learning rate instead) reset the
no-improvement count to zero and continue. -/
def earlyStopCheck (fw : Framework O) (hp : HyperParams) (st : LoopState O) :
    LoopState O × Bool :=
  if hp.nIterNoChange < st.noImprove then
    let ts := fw.triggerStopping st.opt
    if ts.1 then ({ st with opt := ts.2 }, true)
    else maxIterCheck hp { st with opt := ts.2, noImprove := 0 }
  else maxIterCheck hp st

/-- One full epoch of the loop body, lines 172-243. -/
def epochStep (fw : Framework O) (hp : HyperParams) (earlyStopping : Bool)
    (bstep : BatchState O → Nat × Nat → BatchState O)
    (n batchSize : Nat) (valData : Option (List Row × List Row))
    (st : LoopState O) : LoopState O × Bool :=
  earlyStopCheck fw hp (epochCore fw hp earlyStopping bstep n batchSize valData st)

/-- How the epoch loop exited: all `max_iter` epochs ran, the early-stopping
trigger broke out, or a `KeyboardInterrupt` arrived. -/
inductive ExitKind
  | completed
  | broke
  | interrupted
deriving DecidableEq

/-- The `for it in range(self.max_iter)` loop inside `try`, lines 171-243.
`interrupt = some k` models a `KeyboardInterrupt` delivered at the start of
epoch `k`; the loop then stops with whatever state it had. -/
def runEpochs (step : LoopState O → LoopState O × Bool) (interrupt : Option Nat) :
    Nat → Nat → LoopState O → LoopState O × ExitKind
  | 0, _, st => (st, ExitKind.completed)
  | rem + 1, it, st =>
      if interrupt = some it then (st, ExitKind.interrupted)
      else
        let r := step st
        if r.2 then (r.1, ExitKind.broke)
        else runEpochs step interrupt rem (it + 1) r.1

/-- The loop state entering the first epoch: the counters a first-pass
framework initialization leaves (modelled from the spec), the freshly built
optimizer (lines 120-138), and the batch-size warning when one was emitted. -/
def initState (fw : Framework O) (p0 : ParamsP) (warned : Bool) : LoopState O :=
  { params := p0, opt := fw.initOptimizer p0, nIter := 0, t := 0, loss := 0,
    lossCurve := [], noImprove := 0, bestValScore := none, bestLoss := none,
    best := p0, warnings := if warned then [batchSizeWarnMsg] else [] }

/-- The split, batch-size computation and epoch loop of
`_fit_constrained_stochastic` (lines 141-243), parametrized by the mini-batch
step so that the constrained loop and the spec-modelled unconstrained
baseline share the surrounding code, exactly as the spec describes. -/
def coreLoop (fw : Framework O) (hp : HyperParams) (globalRng : Nat)
    (interrupt : Option Nat) (X y : List Row) (params0 : ParamsP)
    (mkStep : List Row → List Row → BatchState O → Nat × Nat → BatchState O) :
    LoopState O × ExitKind :=
  let sp := splitForFit hp globalRng X y
  let n := sp.1.1.length
  let bs := computeBatchSize hp.batchSize n
  runEpochs (epochStep fw hp hp.earlyStopping (mkStep sp.1.1 sp.1.2) n bs.1 sp.2)
    interrupt hp.maxIter 0 (initState fw params0 bs.2)

/-- Lines 244-250, after the epoch loop: a caught `KeyboardInterrupt` becomes
a warning, and with early stopping the best-so-far parameters are restored. -/
def afterLoop (hp : HyperParams) (r : LoopState O × ExitKind) : LoopState O :=
  let st1 := if r.2 = ExitKind.interrupted then
      { r.1 with warnings := r.1.warnings ++ [interruptMsg] } else r.1
  if hp.earlyStopping then { st1 with params := st1.best } else st1

/-- `_fit_constrained_stochastic` (lines 108-252) for `fit`
(`incremental = False`): the epoch loop followed by the interrupt warning and
the best-weight restoration. -/
def fitStochasticCore (fw : Framework O) (hp : HyperParams) (globalRng : Nat)
    (interrupt : Option Nat) (X y : List Row) (params0 : ParamsP)
    (mkStep : List Row → List Row → BatchState O → Nat × Nat → BatchState O) :
    LoopState O × ExitKind :=
  (afterLoop hp (coreLoop fw hp globalRng interrupt X y params0 mkStep),
    (coreLoop fw hp globalRng interrupt X y params0 mkStep).2)

/-- What `fit` leaves on the model object: `coefs_`/`intercepts_`,
`loss_curve_`, `n_iter_`, and the warnings it emitted. -/
structure FitResult where
  params : ParamsP
  lossCurve : List ℚ
  nIter : Nat
  warnings : List String
deriving DecidableEq

/-- The layer unit list built by `_constrained_fit` at line 63. -/
def layerUnitsOf (hp : HyperParams) (X y : List Row) : List Int :=
  ((X.headD []).length : Int) :: hp.hiddenLayerSizes ++ [((y.headD []).length : Int)]

/-- `_constrained_fit` (lines 36-106): validate the hidden layer sizes,
initialize the parameters through the external collaborator, run the
constrained stochastic loop, and finally raise when any resulting weight is
non-finite (lines 98-104). -/
def constrainedFit (fw : Framework O) (hp : HyperParams) (globalRng : Nat)
    (interrupt : Option Nat) (X y : List Row) (minC maxC : List Val) :
    Except String FitResult :=
  if hp.hiddenLayerSizes.any (fun h => decide (h ≤ 0)) then .error hiddenLayerErrMsg
  else
    let params0 := fw.initParams hp.randomState (layerUnitsOf hp X y)
    let r := fitStochasticCore fw hp globalRng interrupt X y params0
      (fun Xt yt => batchStep fw minC maxC Xt yt)
    if paramsFinite r.1.params then
      .ok { params := r.1.params, lossCurve := r.1.lossCurve, nIter := r.1.nIter,
            warnings := r.1.warnings }
    else .error nonFiniteMsg

/-- Modelled from the spec: the unconstrained baseline fit, the same pipeline
run with the baseline mini-batch step (no clipping). -/
def baselineFit (fw : Framework O) (hp : HyperParams) (globalRng : Nat)
    (interrupt : Option Nat) (X y : List Row) : Except String FitResult :=
  if hp.hiddenLayerSizes.any (fun h => decide (h ≤ 0)) then .error hiddenLayerErrMsg
  else
    let params0 := fw.initParams hp.randomState (layerUnitsOf hp X y)
    let r := fitStochasticCore fw hp globalRng interrupt X y params0
      (fun Xt yt => batchStepBase fw Xt yt)
    if paramsFinite r.1.params then
      .ok { params := r.1.params, lossCurve := r.1.lossCurve, nIter := r.1.nIter,
            warnings := r.1.warnings }
    else .error nonFiniteMsg

/-- Modelled from the spec (the base class file is not available):
`_verify_coef` sizes an optional per-feature bound vector to the feature
count, defaulting every feature to the given infinity, and rejects malformed
shapes. -/
def verifyCoef (featureCount : Nat) (coef : Option (List Val)) (dflt : Val) :
    Except String (List Val) :=
  match coef with
  | none => .ok (List.replicate featureCount dflt)
  | some c => if c.length = featureCount then .ok c else .error coefShapeErrMsg

/-- `fit` (lines 12-33): resolve the bound vectors (defaulting to
`-inf`/`+inf`) and run `_constrained_fit`. -/
def fit (fw : Framework O) (hp : HyperParams) (globalRng : Nat)
    (interrupt : Option Nat) (X y : List Row)
    (minCoef maxCoef : Option (List Val)) : Except String FitResult :=
  let featureCount := (X.headD []).length
  match verifyCoef featureCount minCoef ⊥, verifyCoef featureCount maxCoef ⊤ with
  | .ok minC, .ok maxC => constrainedFit fw hp globalRng interrupt X y minC maxC
  | .error e, _ => .error e
  | .ok _, .error e => .error e

/-- Some entry of some coefficient matrix or intercept vector is non-finite:
the condition under which lines 98-104 raise. -/
def hasNonFinite (p : ParamsP) : Prop :=
  (∃ m ∈ p.coefs, ∃ row ∈ m, ∃ x ∈ row, valFinite x = false) ∨
    (∃ row ∈ p.intercepts, ∃ x ∈ row, valFinite x = false)

instance (p : ParamsP) : Decidable (hasNonFinite p) := by
  unfold hasNonFinite
  infer_instance

/-- Loop invariant for claim C1: the live parameters respect the bounds and,
when early stopping is on, so does the best-so-far snapshot. -/
def InvP (minC maxC : List Val) (es : Bool) (st : LoopState O) : Prop :=
  firstCoefInBounds minC maxC st.params = true ∧
    (es = true → firstCoefInBounds minC maxC st.best = true)

/-- Sum of the finite entries of a row. -/
def rowSumQ (r : Row) : ℚ := (r.map valToQ).sum

/-- Elementwise maximum of two parameter sets, a toy optimizer update rule
for the concrete demonstration collaborators below. -/
def paramMax (p g : ParamsP) : ParamsP :=
  { coefs := List.zipWith (List.zipWith (List.zipWith max)) p.coefs g.coefs,
    intercepts := List.zipWith (List.zipWith max) p.intercepts g.intercepts }

/-- A concrete collaborator for witnesses: the backward pass reports the batch
length as the loss, the optimizer keeps the parameters unchanged, and the
stopping trigger declines to stop. -/
def demoFw : Framework Unit where
  initOptimizer _ := ()
  backprop p Xb _ := ((Xb.length : ℚ), p)
  updateParams o p _ := (o, p)
  iterationEnds o _ := o
  triggerStopping o := (false, o)
  score _ _ _ := 0
  initParams _ _ := { coefs := [[[qv (-1)]]], intercepts := [[qv 0]] }

/-- Like `demoFw` but the stopping trigger accepts. -/
def stopFw : Framework Unit where
  initOptimizer _ := ()
  backprop p Xb _ := ((Xb.length : ℚ), p)
  updateParams o p _ := (o, p)
  iterationEnds o _ := o
  triggerStopping o := (true, o)
  score _ _ _ := 0
  initParams _ _ := { coefs := [[[qv (-1)]]], intercepts := [[qv 0]] }

/-- A concrete collaborator whose backward pass returns a gradient below the
lower bounds while the optimizer update takes an elementwise maximum, used to
separate clip-before-update from clip-after-update. -/
def cexFw : Framework Unit where
  initOptimizer _ := ()
  backprop _ _ _ := (0, { coefs := [[[qv (-5)]]], intercepts := [[qv 0]] })
  updateParams o p g := (o, paramMax p g)
  iterationEnds o _ := o
  triggerStopping o := (false, o)
  score _ _ _ := 0
  initParams _ _ := { coefs := [[[qv 2]]], intercepts := [[qv 0]] }

/-- A concrete collaborator whose initial parameters contain `+inf`. -/
def infFw : Framework Unit where
  initOptimizer _ := ()
  backprop p _ _ := (0, p)
  updateParams o p _ := (o, p)
  iterationEnds o _ := o
  triggerStopping o := (false, o)
  score _ _ _ := 0
  initParams _ _ := { coefs := [[[(⊤ : Val)]]], intercepts := [[qv 0]] }

/-- A concrete collaborator whose gradient carries the training batch itself
and whose optimizer installs the gradient as the new parameters, so that the
fitted parameters reveal which samples went into the training split. -/
def rngFw : Framework Unit where
  initOptimizer _ := ()
  backprop _ Xb _ := (0, { coefs := [Xb], intercepts := [] })
  updateParams o _ g := (o, g)
  iterationEnds o _ := o
  triggerStopping o := (false, o)
  score _ _ _ := 0
  initParams _ _ := { coefs := [[[qv 0]]], intercepts := [] }

/-- Hyperparameters for the concrete runs: one hidden layer, one epoch, auto
batch size, no early stopping. -/
def demoHp : HyperParams :=
  { hiddenLayerSizes := [1], maxIter := 1, batchSize := none, tol := 0,
    nIterNoChange := 10, earlyStopping := false, validationFraction := 1 / 10,
    randomState := 7 }

/-- `demoHp` with early stopping and a half/half validation split. -/
def demoHpES : HyperParams :=
  { demoHp with earlyStopping := true, validationFraction := mkRat 1 2 }

/-- `demoHp` with a small no-improvement patience, for the early-stop branch. -/
def demoHpNC : HyperParams := { demoHp with nIterNoChange := 2 }

/-- A loop state sitting right before the no-improvement rule fires. -/
def demoSt : LoopState Unit :=
  { params := { coefs := [[[qv 1]]], intercepts := [[qv 0]] }, opt := (),
    nIter := 0, t := 0, loss := 0, lossCurve := [], noImprove := 5,
    bestValScore := none, bestLoss := some 0,
    best := { coefs := [[[qv 1]]], intercepts := [[qv 0]] }, warnings := [] }

/-- Five concrete sample rows. -/
def demoRows : List Row := [[qv 0], [qv 1], [qv 2], [qv 3], [qv 4]]

theorem npClip_bot_top (x : Val) : npClip x ⊥ ⊤ = x := by
  rw [npClip, max_eq_left bot_le, min_eq_left le_top]

theorem clipRow_bot_top (row : Row) : clipRow ⊥ ⊤ row = row := by
  simp [clipRow, npClip_bot_top]

theorem updateCoefUsingConstrain_bot_top (rows : List Row) :
    ∀ a b : Nat,
      updateCoefUsingConstrain (List.replicate a ⊥) (List.replicate b ⊤) rows = rows := by
  induction rows with
  | nil =>
      intro a b
      cases a <;> cases b <;> simp [updateCoefUsingConstrain, List.replicate_succ]
  | cons r rs ih =>
      intro a b
      cases a <;> cases b <;>
        simp [updateCoefUsingConstrain, List.replicate_succ, clipRow_bot_top, ih]

theorem updateCoefUsingConstrainP_bot_top (a b : Nat) (p : ParamsP) :
    updateCoefUsingConstrainP (List.replicate a ⊥) (List.replicate b ⊤) p = p := by
  rcases p with ⟨coefs, intercepts⟩
  cases coefs with
  | nil => rfl
  | cons c0 rest => simp [updateCoefUsingConstrainP, updateCoefUsingConstrain_bot_top]

theorem batchStep_default_eq_base (O : Type) (fw : Framework O) (a b : Nat)
    (X y : List Row) :
    batchStep fw (List.replicate a ⊥) (List.replicate b ⊤) X y = batchStepBase fw X y := by
  funext st sl
  simp [batchStep, batchStepBase, updateCoefUsingConstrainP_bot_top]

/-- C2: when `min_coef` and `max_coef` are omitted, every feature defaults to
the bounds `(-inf, +inf)`; clipping against those bounds is the identity on
the parameters, and `fit` then computes exactly what the unconstrained
baseline training loop computes on the same inputs and configuration. -/
theorem C2_default_bounds_identity_and_matches_baseline :
    (∀ (a b : Nat) (p : ParamsP),
        updateCoefUsingConstrainP (List.replicate a ⊥) (List.replicate b ⊤) p = p) ∧
    ∀ (O : Type) (fw : Framework O) (hp : HyperParams) (globalRng : Nat)
      (interrupt : Option Nat) (X y : List Row),
      fit fw hp globalRng interrupt X y none none =
        baselineFit fw hp globalRng interrupt X y := by
  refine ⟨updateCoefUsingConstrainP_bot_top, ?_⟩
  intro O fw hp rng intr X y
  simp only [fit, verifyCoef]
  simp only [constrainedFit, baselineFit, batchStep_default_eq_base]

/-- C3 counterexample: at a concrete optimizer, gradient and parameter value,
the mini-batch step of the code leaves different parameters than a step that
overwrites the first layer of the gradients before the optimizer applies
them, so the claim that clipping acts on the gradients prior to the optimizer
update is false. -/
theorem C3_counterexample :
    (batchStep cexFw [qv 0] [qv 1] [[qv 0]] [[qv 0]]
        ((0 : ℚ), (), { coefs := [[[qv 2]]], intercepts := [[qv 0]] }) (0, 1)).2.2 ≠
      (batchStepClipGradsFirst cexFw [qv 0] [qv 1] [[qv 0]] [[qv 0]]
        ((0 : ℚ), (), { coefs := [[[qv 2]]], intercepts := [[qv 0]] }) (0, 1)).2.2 := by
  decide

/-- C3 amended: in every mini-batch step the gradients from backpropagation
reach the optimizer unmodified, and the clipping is applied in place to the
first weight matrix of the PARAMETERS produced by the optimizer update. -/
theorem C3_amended_clip_after_update (O : Type) (fw : Framework O)
    (minC maxC : List Val) (X y : List Row) :
    batchStep fw minC maxC X y = batchStepClipParamsAfter fw minC maxC X y := rfl

/-- C4 counterexample: with early stopping enabled, `train_test_split` is
called without the fixed random state, so two runs that differ only in the
interpreter-global generator produce different fit results (here: different
fitted parameters) on the same inputs and hyperparameters. -/
theorem C4_counterexample :
    fit rngFw demoHpES 0 none [[qv 0], [qv 1]] [[qv 0], [qv 1]] none none ≠
      fit rngFw demoHpES 1 none [[qv 0], [qv 1]] [[qv 0], [qv 1]] none none :=
  fun h =>
    absurd (congrArg (fun r => (Except.toOption r).map (fun f => f.params)) h) (by decide)

/-- C4 amended: with early stopping disabled the interpreter-global generator
is never consulted, and two runs of `fit` with the same `random_state`, data
and hyperparameters give identical results. -/
theorem C4_amended_deterministic_without_early_stopping (O : Type) (fw : Framework O)
    (hp : HyperParams) (rng1 rng2 : Nat) (intr : Option Nat) (X y : List Row)
    (minCoef maxCoef : Option (List Val)) (hes : hp.earlyStopping = false) :
    fit fw hp rng1 intr X y minCoef maxCoef = fit fw hp rng2 intr X y minCoef maxCoef := by
  simp only [fit, constrainedFit, fitStochasticCore, coreLoop, initState, splitForFit, hes,
    Bool.false_eq_true, if_false]

theorem C4_witness :
    demoHp.earlyStopping = false ∧
      fit demoFw demoHp 0 none [[qv 1]] [[qv 1]] none none =
        fit demoFw demoHp 5 none [[qv 1]] [[qv 1]] none none :=
  ⟨rfl, C4_amended_deterministic_without_early_stopping Unit demoFw demoHp 0 5 none
    [[qv 1]] [[qv 1]] none none rfl⟩

/-- C10: with at least one sample, `"auto"` resolves to `min(200, n_samples)`;
an explicit batch size below `1` or above `n_samples` is not an error but sets
the warning flag and is clipped into `[1, n_samples]`; an in-range batch size
is used as given with no warning. -/
theorem C10_batch_size_clipped (b : Int) (n : Nat) (hn : 1 ≤ n) :
    computeBatchSize none n = (min 200 n, false) ∧
    ((b < 1 ∨ (n : Int) < b) →
      (computeBatchSize (some b) n).2 = true ∧
        1 ≤ (computeBatchSize (some b) n).1 ∧ (computeBatchSize (some b) n).1 ≤ n) ∧
    (1 ≤ b → b ≤ (n : Int) → computeBatchSize (some b) n = (b.toNat, false)) := by
  refine ⟨rfl, ?_, ?_⟩
  · intro h
    have h1 : (1 : Int) ≤ max b 1 := le_max_right b 1
    have h2 : (1 : Int) ≤ (n : Int) := by exact_mod_cast hn
    have h3 : (1 : Int) ≤ npClipInt b 1 (n : Int) := le_min h1 h2
    have h4 : npClipInt b 1 (n : Int) ≤ (n : Int) := min_le_right _ _
    refine ⟨?_, ?_, ?_⟩
    · simp only [computeBatchSize, Bool.or_eq_true, decide_eq_true_eq]
      omega
    · simp only [computeBatchSize]
      omega
    · simp only [computeBatchSize]
      omega
  · intro h1 h2
    simp only [computeBatchSize, npClipInt, max_eq_left h1, min_eq_left h2, Prod.mk.injEq,
      Bool.or_eq_false_iff, decide_eq_false_iff_not, not_lt]
    exact ⟨trivial, h1, h2⟩

theorem C10_witness :
    1 ≤ 5 ∧ (computeBatchSize (some 9) 5).2 = true ∧
      1 ≤ (computeBatchSize (some 9) 5).1 ∧ (computeBatchSize (some 9) 5).1 ≤ 5 :=
  ⟨by decide, (C10_batch_size_clipped 9 5 (by decide)).2.1 (Or.inr (by decide))⟩

theorem genBatchesGo_closed (n bs : Nat) (hbs : 1 ≤ bs) :
    ∀ steps j : Nat, steps + j = (n + bs - 1) / bs →
      genBatchesGo n bs (j * bs) steps =
        (List.range steps).map (fun i => ((j + i) * bs, min ((j + i + 1) * bs) n)) := by
  intro steps
  induction steps with
  | zero =>
      intro j hj
      have hj' : j = (n + bs - 1) / bs := by omega
      subst hj'
      have hd := Nat.div_add_mod (n + bs - 1) bs
      have hm : (n + bs - 1) % bs < bs := Nat.mod_lt _ (by omega)
      have hc : (n + bs - 1) / bs * bs = bs * ((n + bs - 1) / bs) := Nat.mul_comm _ _
      have hge : ¬ (n + bs - 1) / bs * bs < n := by omega
      simp [genBatchesGo, hge]
  | succ s ih =>
      intro j hj
      by_cases hle : j * bs + bs ≤ n
      · have h2 : j * bs + bs = (j + 1) * bs := by ring
        have hle' : (j + 1) * bs ≤ n := h2 ▸ hle
        have h3 := ih (j + 1) (by omega)
        rw [show genBatchesGo n bs (j * bs) (s + 1) =
            (j * bs, j * bs + bs) :: genBatchesGo n bs (j * bs + bs) s by
          simp [genBatchesGo, hle]]
        rw [h2, h3, List.range_succ_eq_map, List.map_cons, List.map_map]
        congr 1
        · simp [min_eq_left hle']
        · apply List.map_congr_left
          intro i _
          have h4 : j + 1 + i = j + (i + 1) := by omega
          simp [Function.comp, h4]
      · have h2 : (j + 2) * bs = j * bs + bs + bs := by ring
        have hceil : (n + bs - 1) / bs < j + 2 := by
          rw [Nat.div_lt_iff_lt_mul (by omega)]
          omega
        obtain rfl : s = 0 := by omega
        have hjc : j + 1 ≤ (n + bs - 1) / bs := by omega
        have hmul : (j + 1) * bs ≤ n + bs - 1 := by
          have := (Nat.le_div_iff_mul_le (by omega : 0 < bs)).mp hjc
          exact this
        have h5 : (j + 1) * bs = j * bs + bs := by ring
        have hlt : j * bs < n := by omega
        have hmin : min ((j + 1) * bs) n = n := by
          apply min_eq_right
          omega
        simp [genBatchesGo, hle, hlt, hmin, List.range_succ]

theorem gen_batches_closed (n bs : Nat) (hbs : 1 ≤ bs) :
    gen_batches n bs =
      (List.range ((n + bs - 1) / bs)).map (fun k => (k * bs, min ((k + 1) * bs) n)) := by
  have h := genBatchesGo_closed n bs hbs ((n + bs - 1) / bs) 0 (by omega)
  simpa [gen_batches] using h

theorem take_min_length {α : Type} (xs : List α) (a : Nat) :
    xs.take (min a xs.length) = xs.take a := by
  rcases le_total a xs.length with h | h
  · rw [min_eq_left h]
  · rw [min_eq_right h, List.take_length, List.take_of_length_le h]

theorem sliceL_batch {α : Type} (xs : List α) (bs k : Nat) :
    sliceL xs (k * bs, min ((k + 1) * bs) xs.length) = (xs.drop (k * bs)).take bs := by
  rw [sliceL]
  have h2 : (k + 1) * bs = k * bs + bs := by ring
  have h3 : min ((k + 1) * bs) xs.length - k * bs = min bs (xs.length - k * bs) := by omega
  have h4 : (xs.drop (k * bs)).length = xs.length - k * bs := List.length_drop _ _
  rw [h3, ← h4, take_min_length]

theorem join_take_drop {α : Type} (bs : Nat) :
    ∀ (m : Nat) (xs : List α), xs.length ≤ m * bs →
      ((List.range m).map (fun k => (xs.drop (k * bs)).take bs)).flatten = xs := by
  intro m
  induction m with
  | zero =>
      intro xs h
      simp only [Nat.zero_mul, Nat.le_zero] at h
      simp [List.eq_nil_of_length_eq_zero h]
  | succ m ih =>
      intro xs h
      rw [List.range_succ_eq_map, List.map_cons, List.flatten_cons, List.map_map]
      have hstep : ∀ k ∈ List.range m,
          ((fun k => (xs.drop (k * bs)).take bs) ∘ Nat.succ) k =
            (fun k => ((xs.drop bs).drop (k * bs)).take bs) k := by
        intro k _
        have h5 : Nat.succ k * bs = k * bs + bs := Nat.succ_mul k bs
        have h6 : (xs.drop bs).drop (k * bs) = xs.drop (k * bs + bs) := by
          rw [List.drop_drop]
          congr 1
          omega
        simp only [Function.comp_apply, h5, h6]
      rw [List.map_congr_left hstep]
      have h6 : (m + 1) * bs = m * bs + bs := by ring
      rw [ih (xs.drop bs) (by simp [List.length_drop]; omega)]
      simp [List.take_append_drop]

theorem le_ceil_mul (n bs : Nat) (hbs : 1 ≤ bs) : n ≤ (n + bs - 1) / bs * bs := by
  have hd := Nat.div_add_mod (n + bs - 1) bs
  have hm : (n + bs - 1) % bs < bs := Nat.mod_lt _ (by omega)
  have hc : (n + bs - 1) / bs * bs = bs * ((n + bs - 1) / bs) := Nat.mul_comm _ _
  omega

/-- C5: with a positive batch size, the batch slices of an epoch are exactly
the consecutive intervals whose k-th element is
`[k * batch_size, min((k+1) * batch_size, n))`, and slicing any sample list of
length `n` along them yields a partition that preserves the original sample
order: the concatenation of the batches is the original list (no shuffling). -/
theorem C5_batches_are_ordered_partition (n bs : Nat) (hbs : 1 ≤ bs) :
    gen_batches n bs =
      (List.range ((n + bs - 1) / bs)).map (fun k => (k * bs, min ((k + 1) * bs) n)) ∧
    ∀ xs : List Row, xs.length = n →
      ((gen_batches n bs).map (fun sl => sliceL xs sl)).flatten = xs := by
  refine ⟨gen_batches_closed n bs hbs, ?_⟩
  intro xs hlen
  subst hlen
  rw [gen_batches_closed _ bs hbs, List.map_map]
  have hstep : ∀ k ∈ List.range ((xs.length + bs - 1) / bs),
      ((fun sl => sliceL xs sl) ∘ fun k => (k * bs, min ((k + 1) * bs) xs.length)) k =
        (fun k => (xs.drop (k * bs)).take bs) k := by
    intro k _
    simpa [Function.comp] using sliceL_batch xs bs k
  rw [List.map_congr_left hstep]
  exact join_take_drop bs _ xs (le_ceil_mul xs.length bs hbs)

theorem C5_witness :
    1 ≤ 2 ∧
      ((gen_batches 5 2).map (fun sl => sliceL demoRows sl)).flatten = demoRows :=
  ⟨by decide, (C5_batches_are_ordered_partition 5 2 (by decide)).2 demoRows (by decide)⟩

/-- C6: when the no-improvement counter exceeds `n_iter_no_change` after an
epoch, the loop asks the optimizer to trigger stopping: if the optimizer
accepts, the epoch loop halts (break); otherwise the optimizer state returned
by the trigger (which decayed its learning rate instead) is installed, the
no-improvement counter is reset to zero, and training continues.  When the
counter does not exceed the patience, training continues with the counter
unchanged. -/
theorem C6_no_improvement_halts_or_decays (O : Type) (fw : Framework O)
    (hp : HyperParams) (es : Bool) (bstep : BatchState O → Nat × Nat → BatchState O)
    (n bs : Nat) (vd : Option (List Row × List Row)) (st : LoopState O) :
    (hp.nIterNoChange < (epochCore fw hp es bstep n bs vd st).noImprove →
      ((fw.triggerStopping (epochCore fw hp es bstep n bs vd st).opt).1 = true →
        epochStep fw hp es bstep n bs vd st =
          ({ epochCore fw hp es bstep n bs vd st with
              opt := (fw.triggerStopping (epochCore fw hp es bstep n bs vd st).opt).2 },
            true)) ∧
      ((fw.triggerStopping (epochCore fw hp es bstep n bs vd st).opt).1 = false →
        (epochStep fw hp es bstep n bs vd st).2 = false ∧
        (epochStep fw hp es bstep n bs vd st).1.noImprove = 0 ∧
        (epochStep fw hp es bstep n bs vd st).1.opt =
          (fw.triggerStopping (epochCore fw hp es bstep n bs vd st).opt).2)) ∧
    (¬ hp.nIterNoChange < (epochCore fw hp es bstep n bs vd st).noImprove →
      (epochStep fw hp es bstep n bs vd st).2 = false ∧
      (epochStep fw hp es bstep n bs vd st).1.noImprove =
        (epochCore fw hp es bstep n bs vd st).noImprove) := by
  constructor
  · intro hgt
    constructor
    · intro htrig
      simp [epochStep, earlyStopCheck, hgt, htrig]
    · intro htrig
      simp only [epochStep, earlyStopCheck, if_pos hgt, htrig, Bool.false_eq_true, if_false,
        maxIterCheck]
      split <;> simp
  · intro hle
    simp only [epochStep, earlyStopCheck, if_neg hle, maxIterCheck]
    split <;> simp

theorem C6_witness :
    (demoHpNC.nIterNoChange <
      (epochCore stopFw demoHpNC false (batchStep stopFw [] [] [[qv 1]] [[qv 1]]) 1 1 none
        demoSt).noImprove) ∧
    (epochStep stopFw demoHpNC false (batchStep stopFw [] [] [[qv 1]] [[qv 1]]) 1 1 none
        demoSt).2 = true ∧
    (epochStep demoFw demoHpNC false (batchStep demoFw [] [] [[qv 1]] [[qv 1]]) 1 1 none
        demoSt).1.noImprove = 0 := by
  have hgt1 : demoHpNC.nIterNoChange <
      (epochCore stopFw demoHpNC false (batchStep stopFw [] [] [[qv 1]] [[qv 1]]) 1 1 none
        demoSt).noImprove := by
    norm_num [epochCore, updateNoImprovementCount, batchStep, gen_batches, genBatchesGo,
      sliceL, updateCoefUsingConstrainP, updateCoefUsingConstrain, stopFw, demoSt, demoHpNC,
      demoHp]
  have hgt2 : demoHpNC.nIterNoChange <
      (epochCore demoFw demoHpNC false (batchStep demoFw [] [] [[qv 1]] [[qv 1]]) 1 1 none
        demoSt).noImprove := by
    norm_num [epochCore, updateNoImprovementCount, batchStep, gen_batches, genBatchesGo,
      sliceL, updateCoefUsingConstrainP, updateCoefUsingConstrain, demoFw, demoSt, demoHpNC,
      demoHp]
  refine ⟨hgt1, ?_, ?_⟩
  · rw [((C6_no_improvement_halts_or_decays Unit stopFw demoHpNC false
      (batchStep stopFw [] [] [[qv 1]] [[qv 1]]) 1 1 none demoSt).1 hgt1).1 rfl]
  · exact (((C6_no_improvement_halts_or_decays Unit demoFw demoHpNC false
      (batchStep demoFw [] [] [[qv 1]] [[qv 1]]) 1 1 none demoSt).1 hgt2).2 rfl).2.1

theorem afterLoop_interrupted (hp : HyperParams) (r : LoopState O × ExitKind)
    (h : r.2 = ExitKind.interrupted) :
    interruptMsg ∈ (afterLoop hp r).warnings ∧
      (hp.earlyStopping = true →
        (afterLoop hp r).params = (afterLoop hp r).best) := by
  constructor
  · simp only [afterLoop, h]
    split <;> simp
  · intro hes
    simp only [afterLoop, h, hes]
    simp

/-- C7: if a keyboard interrupt stops the epoch loop, the training function
still returns normally: the warning "Training interrupted by user." is
emitted instead of propagating the failure, and with early stopping the
parameters left in place are the best-so-far snapshot restored by the
best-weight restoration step (lines 247-250). -/
theorem C7_interrupt_warns_and_keeps_best (O : Type) (fw : Framework O)
    (hp : HyperParams) (rng : Nat) (intr : Option Nat) (X y : List Row)
    (p0 : ParamsP) (minC maxC : List Val)
    (hintr : (fitStochasticCore fw hp rng intr X y p0
        (fun Xt yt => batchStep fw minC maxC Xt yt)).2 = ExitKind.interrupted) :
    interruptMsg ∈ (fitStochasticCore fw hp rng intr X y p0
        (fun Xt yt => batchStep fw minC maxC Xt yt)).1.warnings ∧
      (hp.earlyStopping = true →
        (fitStochasticCore fw hp rng intr X y p0
            (fun Xt yt => batchStep fw minC maxC Xt yt)).1.params =
          (fitStochasticCore fw hp rng intr X y p0
              (fun Xt yt => batchStep fw minC maxC Xt yt)).1.best) :=
  afterLoop_interrupted hp _ hintr

theorem C7_witness :
    ((fitStochasticCore demoFw demoHpES 0 (some 0) [[qv 0], [qv 1]] [[qv 0], [qv 1]]
        { coefs := [[[qv (-1)]]], intercepts := [[qv 0]] }
        (fun Xt yt => batchStep demoFw [] [] Xt yt)).2 = ExitKind.interrupted) ∧
      interruptMsg ∈ (fitStochasticCore demoFw demoHpES 0 (some 0) [[qv 0], [qv 1]]
          [[qv 0], [qv 1]] { coefs := [[[qv (-1)]]], intercepts := [[qv 0]] }
          (fun Xt yt => batchStep demoFw [] [] Xt yt)).1.warnings ∧
      (demoHpES.earlyStopping = true →
        (fitStochasticCore demoFw demoHpES 0 (some 0) [[qv 0], [qv 1]] [[qv 0], [qv 1]]
            { coefs := [[[qv (-1)]]], intercepts := [[qv 0]] }
            (fun Xt yt => batchStep demoFw [] [] Xt yt)).1.params =
          (fitStochasticCore demoFw demoHpES 0 (some 0) [[qv 0], [qv 1]] [[qv 0], [qv 1]]
              { coefs := [[[qv (-1)]]], intercepts := [[qv 0]] }
              (fun Xt yt => batchStep demoFw [] [] Xt yt)).1.best) := by
  have h : (fitStochasticCore demoFw demoHpES 0 (some 0) [[qv 0], [qv 1]] [[qv 0], [qv 1]]
      { coefs := [[[qv (-1)]]], intercepts := [[qv 0]] }
      (fun Xt yt => batchStep demoFw [] [] Xt yt)).2 = ExitKind.interrupted := by decide
  exact ⟨h, C7_interrupt_warns_and_keeps_best Unit demoFw demoHpES 0 (some 0)
    [[qv 0], [qv 1]] [[qv 0], [qv 1]] { coefs := [[[qv (-1)]]], intercepts := [[qv 0]] }
    [] [] h⟩

theorem paramsFinite_iff (p : ParamsP) : paramsFinite p = true ↔ ¬ hasNonFinite p := by
  simp only [paramsFinite, hasNonFinite, Bool.and_eq_true, List.all_eq_true, not_or,
    not_exists, not_and, Bool.not_eq_false]

/-- C8: after training, if any entry of any coefficient matrix or intercept
vector of the resulting parameters is non-finite, the fit raises the fatal
"non-finite parameter weights" error instead of returning the model; when
every entry is finite it returns the fitted model built from the final loop
state. -/
theorem C8_nonfinite_is_fatal (O : Type) (fw : Framework O) (hp : HyperParams)
    (rng : Nat) (intr : Option Nat) (X y : List Row) (minC maxC : List Val)
    (hlayers : hp.hiddenLayerSizes.any (fun h => decide (h ≤ 0)) = false) :
    (hasNonFinite ((fitStochasticCore fw hp rng intr X y
          (fw.initParams hp.randomState (layerUnitsOf hp X y))
          (fun Xt yt => batchStep fw minC maxC Xt yt)).1.params) →
      constrainedFit fw hp rng intr X y minC maxC = Except.error nonFiniteMsg) ∧
    (¬ hasNonFinite ((fitStochasticCore fw hp rng intr X y
          (fw.initParams hp.randomState (layerUnitsOf hp X y))
          (fun Xt yt => batchStep fw minC maxC Xt yt)).1.params) →
      constrainedFit fw hp rng intr X y minC maxC = Except.ok
        { params := (fitStochasticCore fw hp rng intr X y
              (fw.initParams hp.randomState (layerUnitsOf hp X y))
              (fun Xt yt => batchStep fw minC maxC Xt yt)).1.params,
          lossCurve := (fitStochasticCore fw hp rng intr X y
              (fw.initParams hp.randomState (layerUnitsOf hp X y))
              (fun Xt yt => batchStep fw minC maxC Xt yt)).1.lossCurve,
          nIter := (fitStochasticCore fw hp rng intr X y
              (fw.initParams hp.randomState (layerUnitsOf hp X y))
              (fun Xt yt => batchStep fw minC maxC Xt yt)).1.nIter,
          warnings := (fitStochasticCore fw hp rng intr X y
              (fw.initParams hp.randomState (layerUnitsOf hp X y))
              (fun Xt yt => batchStep fw minC maxC Xt yt)).1.warnings }) := by
  constructor
  · intro hnf
    have hpf : paramsFinite ((fitStochasticCore fw hp rng intr X y
        (fw.initParams hp.randomState (layerUnitsOf hp X y))
        (fun Xt yt => batchStep fw minC maxC Xt yt)).1.params) = false := by
      cases hb : paramsFinite ((fitStochasticCore fw hp rng intr X y
          (fw.initParams hp.randomState (layerUnitsOf hp X y))
          (fun Xt yt => batchStep fw minC maxC Xt yt)).1.params) with
      | false => rfl
      | true => exact absurd hnf ((paramsFinite_iff _).mp hb)
    simp [constrainedFit, hlayers, hpf]
  · intro hnf
    have hpf := (paramsFinite_iff _).mpr hnf
    simp [constrainedFit, hlayers, hpf]

theorem C8_witness :
    (demoHp.hiddenLayerSizes.any (fun h => decide (h ≤ 0)) = false) ∧
    hasNonFinite ((fitStochasticCore infFw demoHp 0 none [[qv 1]] [[qv 1]]
        (infFw.initParams demoHp.randomState (layerUnitsOf demoHp [[qv 1]] [[qv 1]]))
        (fun Xt yt => batchStep infFw [] [] Xt yt)).1.params) ∧
    constrainedFit infFw demoHp 0 none [[qv 1]] [[qv 1]] [] [] =
      Except.error nonFiniteMsg := by
  have h2 : hasNonFinite ((fitStochasticCore infFw demoHp 0 none [[qv 1]] [[qv 1]]
      (infFw.initParams demoHp.randomState (layerUnitsOf demoHp [[qv 1]] [[qv 1]]))
      (fun Xt yt => batchStep infFw [] [] Xt yt)).1.params) := by decide
  exact ⟨by decide, h2,
    (C8_nonfinite_is_fatal Unit infFw demoHp 0 none [[qv 1]] [[qv 1]] [] []
      (by decide)).1 h2⟩

theorem epochCore_nIter (fw : Framework O) (hp : HyperParams) (es : Bool)
    (bstep : BatchState O → Nat × Nat → BatchState O) (n bs : Nat)
    (vd : Option (List Row × List Row)) (st : LoopState O) :
    (epochCore fw hp es bstep n bs vd st).nIter = st.nIter + 1 := rfl

theorem earlyStopCheck_preserves (fw : Framework O) (hp : HyperParams) (st : LoopState O) :
    (earlyStopCheck fw hp st).1.nIter = st.nIter ∧
    (earlyStopCheck fw hp st).1.params = st.params ∧
    (earlyStopCheck fw hp st).1.best = st.best ∧
    (earlyStopCheck fw hp st).1.bestValScore = st.bestValScore := by
  simp only [earlyStopCheck, maxIterCheck]
  split <;> (try split) <;> (try split) <;> simp

theorem epochStep_nIter (fw : Framework O) (hp : HyperParams) (es : Bool)
    (bstep : BatchState O → Nat × Nat → BatchState O) (n bs : Nat)
    (vd : Option (List Row × List Row)) (st : LoopState O) :
    (epochStep fw hp es bstep n bs vd st).1.nIter = st.nIter + 1 := by
  rw [epochStep, (earlyStopCheck_preserves fw hp _).1, epochCore_nIter]

theorem runEpochs_nIter_le (step : LoopState O → LoopState O × Bool)
    (intr : Option Nat) (hn : ∀ st, (step st).1.nIter = st.nIter + 1) :
    ∀ (rem it : Nat) (st : LoopState O),
      (runEpochs step intr rem it st).1.nIter ≤ st.nIter + rem := by
  intro rem
  induction rem with
  | zero => intro it st; simp [runEpochs]
  | succ m ih =>
      intro it st
      simp only [runEpochs]
      by_cases hi : intr = some it
      · simp [hi]
      · simp only [hi, if_false, if_neg hi]
        by_cases hb : (step st).2
        · simp only [hb, if_true]
          rw [hn st]
          omega
        · simp only [hb, Bool.false_eq_true, if_false]
          have h := ih (it + 1) (step st).1
          rw [hn st] at h
          omega

theorem maxIterCheck_warns (hp : HyperParams) (st : LoopState O)
    (h : st.nIter = hp.maxIter) : maxIterMsg ∈ (maxIterCheck hp st).1.warnings := by
  simp [maxIterCheck, h]

theorem epochStep_warns (fw : Framework O) (hp : HyperParams) (es : Bool)
    (bstep : BatchState O → Nat × Nat → BatchState O) (n bs : Nat)
    (vd : Option (List Row × List Row)) (st : LoopState O)
    (h : st.nIter + 1 = hp.maxIter)
    (hb : (epochStep fw hp es bstep n bs vd st).2 = false) :
    maxIterMsg ∈ (epochStep fw hp es bstep n bs vd st).1.warnings := by
  have hcn : (epochCore fw hp es bstep n bs vd st).nIter = hp.maxIter := by
    rw [epochCore_nIter]; omega
  by_cases hA : hp.nIterNoChange < (epochCore fw hp es bstep n bs vd st).noImprove
  · by_cases hT : (fw.triggerStopping (epochCore fw hp es bstep n bs vd st).opt).1 = true
    · simp [epochStep, earlyStopCheck, hA, hT] at hb
    · simp only [Bool.not_eq_true] at hT
      simp [epochStep, earlyStopCheck, maxIterCheck, hA, hT, hcn]
  · simp [epochStep, earlyStopCheck, maxIterCheck, hA, hcn]

theorem runEpochs_completed_warns (step : LoopState O → LoopState O × Bool)
    (intr : Option Nat) (M : Nat)
    (hw : ∀ st, st.nIter + 1 = M → (step st).2 = false →
      maxIterMsg ∈ (step st).1.warnings)
    (hn : ∀ st, (step st).1.nIter = st.nIter + 1) :
    ∀ (rem it : Nat) (st : LoopState O), 1 ≤ rem → st.nIter + rem = M →
      (runEpochs step intr rem it st).2 = ExitKind.completed →
      maxIterMsg ∈ (runEpochs step intr rem it st).1.warnings := by
  intro rem
  induction rem with
  | zero => intro it st h1; omega
  | succ m ih =>
      intro it st _ hsum hc
      rw [runEpochs] at hc ⊢
      by_cases hi : intr = some it
      · rw [if_pos hi] at hc
        exact absurd hc (by simp)
      · rw [if_neg hi] at hc ⊢
        by_cases hb : (step st).2
        · rw [if_pos hb] at hc
          exact absurd hc (by simp)
        · rw [if_neg hb] at hc ⊢
          cases m with
          | zero =>
              rw [runEpochs] at hc ⊢
              exact hw st (by omega) (by simpa using hb)
          | succ k =>
              exact ih (it + 1) (step st).1 (by omega) (by rw [hn st]; omega) hc

theorem afterLoop_nIter (hp : HyperParams) (r : LoopState O × ExitKind) :
    (afterLoop hp r).nIter = r.1.nIter := by
  simp only [afterLoop]
  split <;> split <;> rfl

theorem afterLoop_warn_mem (hp : HyperParams) (r : LoopState O × ExitKind) (w : String)
    (h : w ∈ r.1.warnings) : w ∈ (afterLoop hp r).warnings := by
  simp only [afterLoop]
  split <;> split <;> simp [h]

/-- C9: the training loop always terminates after at most `max_iter` epochs
(the final iteration counter never exceeds `max_iter`), and when the loop
completes all its epochs without the early-stopping trigger breaking out, the
non-fatal "maximum iterations reached and the optimization has not converged"
warning has been emitted while the fit still returns its result. -/
theorem C9_bounded_epochs_and_max_iter_warning (O : Type) (fw : Framework O)
    (hp : HyperParams) (rng : Nat) (intr : Option Nat) (X y : List Row)
    (p0 : ParamsP) (minC maxC : List Val) :
    (fitStochasticCore fw hp rng intr X y p0
        (fun Xt yt => batchStep fw minC maxC Xt yt)).1.nIter ≤ hp.maxIter ∧
    ((fitStochasticCore fw hp rng intr X y p0
        (fun Xt yt => batchStep fw minC maxC Xt yt)).2 = ExitKind.completed →
      1 ≤ hp.maxIter →
      maxIterMsg ∈ (fitStochasticCore fw hp rng intr X y p0
          (fun Xt yt => batchStep fw minC maxC Xt yt)).1.warnings) := by
  constructor
  · show (afterLoop hp (coreLoop fw hp rng intr X y p0
        (fun Xt yt => batchStep fw minC maxC Xt yt))).nIter ≤ hp.maxIter
    rw [afterLoop_nIter]
    show (runEpochs _ intr hp.maxIter 0 _).1.nIter ≤ hp.maxIter
    have h := runEpochs_nIter_le
      (epochStep fw hp hp.earlyStopping
        (batchStep fw minC maxC (splitForFit hp rng X y).1.1 (splitForFit hp rng X y).1.2)
        (splitForFit hp rng X y).1.1.length
        (computeBatchSize hp.batchSize (splitForFit hp rng X y).1.1.length).1
        (splitForFit hp rng X y).2)
      intr (fun st => epochStep_nIter fw hp _ _ _ _ _ st) hp.maxIter 0
      (initState fw p0 (computeBatchSize hp.batchSize (splitForFit hp rng X y).1.1.length).2)
    simpa [initState] using h
  · intro hc hm
    show maxIterMsg ∈ (afterLoop hp (coreLoop fw hp rng intr X y p0
        (fun Xt yt => batchStep fw minC maxC Xt yt))).warnings
    apply afterLoop_warn_mem
    have h := runEpochs_completed_warns
      (epochStep fw hp hp.earlyStopping
        (batchStep fw minC maxC (splitForFit hp rng X y).1.1 (splitForFit hp rng X y).1.2)
        (splitForFit hp rng X y).1.1.length
        (computeBatchSize hp.batchSize (splitForFit hp rng X y).1.1.length).1
        (splitForFit hp rng X y).2)
      intr hp.maxIter
      (fun st hst hbst => epochStep_warns fw hp _ _ _ _ _ st hst hbst)
      (fun st => epochStep_nIter fw hp _ _ _ _ _ st) hp.maxIter 0
      (initState fw p0 (computeBatchSize hp.batchSize (splitForFit hp rng X y).1.1.length).2)
      hm (by simp [initState]) hc
    exact h

theorem C9_witness :
    ((fitStochasticCore demoFw demoHp 0 none [[qv 1]] [[qv 1]]
        { coefs := [[[qv (-1)]]], intercepts := [[qv 0]] }
        (fun Xt yt => batchStep demoFw [qv 0] [qv 5] Xt yt)).2 = ExitKind.completed) ∧
      1 ≤ demoHp.maxIter ∧
      maxIterMsg ∈ (fitStochasticCore demoFw demoHp 0 none [[qv 1]] [[qv 1]]
          { coefs := [[[qv (-1)]]], intercepts := [[qv 0]] }
          (fun Xt yt => batchStep demoFw [qv 0] [qv 5] Xt yt)).1.warnings := by
  have hc : (fitStochasticCore demoFw demoHp 0 none [[qv 1]] [[qv 1]]
      { coefs := [[[qv (-1)]]], intercepts := [[qv 0]] }
      (fun Xt yt => batchStep demoFw [qv 0] [qv 5] Xt yt)).2 = ExitKind.completed := by
    decide
  exact ⟨hc, by decide,
    (C9_bounded_epochs_and_max_iter_warning Unit demoFw demoHp 0 none [[qv 1]] [[qv 1]]
      { coefs := [[[qv (-1)]]], intercepts := [[qv 0]] } [qv 0] [qv 5]).2 hc (by decide)⟩

theorem rowInBounds_clipRow (lo hi : Val) (row : Row) (h : lo ≤ hi) :
    rowInBounds lo hi (clipRow lo hi row) = true := by
  rw [rowInBounds, List.all_eq_true]
  intro x hx
  simp only [clipRow] at hx
  rcases List.mem_map.mp hx with ⟨a, _, rfl⟩
  simp only [npClip, Bool.and_eq_true, decide_eq_true_eq]
  exact ⟨le_min (le_max_right a lo) h, min_le_right _ _⟩

theorem matInBounds_update :
    ∀ (los his : List Val) (rows : List Row), boundsOk los his = true →
      matInBounds los his (updateCoefUsingConstrain los his rows) = true := by
  intro los
  induction los with
  | nil =>
      intro his rows _
      cases his <;> cases rows <;> simp [updateCoefUsingConstrain, matInBounds]
  | cons lo los ih =>
      intro his rows h
      cases his with
      | nil => cases rows <;> simp [updateCoefUsingConstrain, matInBounds]
      | cons hi his =>
          cases rows with
          | nil => simp [updateCoefUsingConstrain, matInBounds]
          | cons row rows =>
              simp only [boundsOk, Bool.and_eq_true, decide_eq_true_eq] at h
              simp only [updateCoefUsingConstrain, matInBounds, Bool.and_eq_true]
              exact ⟨rowInBounds_clipRow lo hi row h.1, ih his rows h.2⟩

theorem firstCoefInBounds_update (minC maxC : List Val) (p : ParamsP)
    (h : boundsOk minC maxC = true) :
    firstCoefInBounds minC maxC (updateCoefUsingConstrainP minC maxC p) = true := by
  rcases p with ⟨coefs, intercepts⟩
  cases coefs with
  | nil => rfl
  | cons c0 rest =>
      simp only [updateCoefUsingConstrainP, firstCoefInBounds]
      exact matInBounds_update minC maxC c0 h

theorem batchStep_inBounds (fw : Framework O) (minC maxC : List Val) (X y : List Row)
    (h : boundsOk minC maxC = true) (st : BatchState O) (sl : Nat × Nat) :
    firstCoefInBounds minC maxC ((batchStep fw minC maxC X y st sl).2.2) = true := by
  simp only [batchStep]
  exact firstCoefInBounds_update _ _ _ h

theorem foldl_post {α β : Type} (P : β → Prop) (f : β → α → β)
    (hf : ∀ s a, P (f s a)) : ∀ (l : List α) (init : β), l ≠ [] → P (l.foldl f init) := by
  intro l
  induction l with
  | nil => intro init h; exact absurd rfl h
  | cons a l ih =>
      intro init _
      rw [List.foldl_cons]
      cases l with
      | nil => simpa using hf init a
      | cons b l2 => exact ih (f init a) (by simp)

theorem genBatchesGo_ne_nil (n bs : Nat) : ∀ (steps start : Nat), start < n →
    genBatchesGo n bs start steps ≠ [] := by
  intro steps
  induction steps with
  | zero => intro start h; simp [genBatchesGo, h]
  | succ m ih =>
      intro start h
      by_cases hle : start + bs ≤ n
      · simp [genBatchesGo, hle]
      · simpa [genBatchesGo, hle] using ih start h

theorem gen_batches_ne_nil (n bs : Nat) (hn : 1 ≤ n) : gen_batches n bs ≠ [] :=
  genBatchesGo_ne_nil n bs _ 0 hn

theorem epochCore_params_inBounds (fw : Framework O) (hp : HyperParams) (es : Bool)
    (minC maxC : List Val) (X y : List Row) (n bs : Nat)
    (vd : Option (List Row × List Row)) (st : LoopState O)
    (hb : boundsOk minC maxC = true) (hn : 1 ≤ n) :
    firstCoefInBounds minC maxC
      (epochCore fw hp es (batchStep fw minC maxC X y) n bs vd st).params = true := by
  have h := foldl_post (fun b : BatchState O => firstCoefInBounds minC maxC b.2.2 = true)
    (batchStep fw minC maxC X y) (fun s a => batchStep_inBounds fw minC maxC X y hb s a)
    (gen_batches n bs) ((0 : ℚ), st.opt, st.params) (gen_batches_ne_nil n bs hn)
  simpa [epochCore] using h

theorem epochCore_best_cases (fw : Framework O) (hp : HyperParams) (es : Bool)
    (bstep : BatchState O → Nat × Nat → BatchState O) (n bs : Nat)
    (vd : Option (List Row × List Row)) (st : LoopState O) :
    (epochCore fw hp es bstep n bs vd st).best =
        (epochCore fw hp es bstep n bs vd st).params ∨
      (epochCore fw hp es bstep n bs vd st).best = st.best := by
  simp only [epochCore, updateNoImprovementCount]
  split
  · split
    · left; rfl
    · split
      · left; rfl
      · right; rfl
  · split
    · right; rfl
    · right; rfl

theorem epochCore_best_of_none (fw : Framework O) (hp : HyperParams) (es : Bool)
    (bstep : BatchState O → Nat × Nat → BatchState O) (n bs : Nat)
    (vd : Option (List Row × List Row)) (st : LoopState O)
    (hes : es = true) (hbvs : st.bestValScore = none) :
    (epochCore fw hp es bstep n bs vd st).best =
      (epochCore fw hp es bstep n bs vd st).params := by
  subst hes
  simp [epochCore, updateNoImprovementCount, hbvs]

theorem epochStep_inv_preserve (fw : Framework O) (hp : HyperParams) (es : Bool)
    (minC maxC : List Val) (X y : List Row) (n bs : Nat)
    (vd : Option (List Row × List Row))
    (hb : boundsOk minC maxC = true) (hn : 1 ≤ n) (st : LoopState O)
    (hInv : InvP minC maxC es st) :
    InvP minC maxC es (epochStep fw hp es (batchStep fw minC maxC X y) n bs vd st).1 := by
  have hpres := earlyStopCheck_preserves fw hp
    (epochCore fw hp es (batchStep fw minC maxC X y) n bs vd st)
  constructor
  · rw [epochStep, hpres.2.1]
    exact epochCore_params_inBounds fw hp es minC maxC X y n bs vd st hb hn
  · intro hes
    rw [epochStep, hpres.2.2.1]
    rcases epochCore_best_cases fw hp es (batchStep fw minC maxC X y) n bs vd st with h | h
    · rw [h]
      exact epochCore_params_inBounds fw hp es minC maxC X y n bs vd st hb hn
    · rw [h]
      exact hInv.2 hes

theorem epochStep_inv_establish (fw : Framework O) (hp : HyperParams) (es : Bool)
    (minC maxC : List Val) (X y : List Row) (n bs : Nat)
    (vd : Option (List Row × List Row))
    (hb : boundsOk minC maxC = true) (hn : 1 ≤ n) (st : LoopState O)
    (hbvs : st.bestValScore = none) :
    InvP minC maxC es (epochStep fw hp es (batchStep fw minC maxC X y) n bs vd st).1 := by
  have hpres := earlyStopCheck_preserves fw hp
    (epochCore fw hp es (batchStep fw minC maxC X y) n bs vd st)
  constructor
  · rw [epochStep, hpres.2.1]
    exact epochCore_params_inBounds fw hp es minC maxC X y n bs vd st hb hn
  · intro hes
    rw [epochStep, hpres.2.2.1,
      epochCore_best_of_none fw hp es (batchStep fw minC maxC X y) n bs vd st hes hbvs]
    exact epochCore_params_inBounds fw hp es minC maxC X y n bs vd st hb hn

theorem runEpochs_inv (minC maxC : List Val) (es : Bool)
    (step : LoopState O → LoopState O × Bool) (intr : Option Nat)
    (hP : ∀ st, InvP minC maxC es st → InvP minC maxC es (step st).1) :
    ∀ (rem it : Nat) (st : LoopState O), InvP minC maxC es st →
      InvP minC maxC es (runEpochs step intr rem it st).1 := by
  intro rem
  induction rem with
  | zero => intro it st h; simpa [runEpochs] using h
  | succ m ih =>
      intro it st h
      simp only [runEpochs]
      by_cases hi : intr = some it
      · simpa [hi] using h
      · simp only [hi, if_false, if_neg hi]
        by_cases hb2 : (step st).2
        · simpa [hb2] using hP st h
        · simp only [hb2, Bool.false_eq_true, if_false]
          exact ih (it + 1) (step st).1 (hP st h)

theorem afterLoop_params (hp : HyperParams) (r : LoopState O × ExitKind) :
    (afterLoop hp r).params = if hp.earlyStopping then r.1.best else r.1.params := by
  by_cases hes : hp.earlyStopping = true <;>
    by_cases hint : r.2 = ExitKind.interrupted <;> simp [afterLoop, hes, hint]

theorem fitCore_params_inBounds (fw : Framework O) (hp : HyperParams)
    (rng : Nat) (X y : List Row) (p0 : ParamsP) (minC maxC : List Val)
    (hb : boundsOk minC maxC = true) (hmax : 1 ≤ hp.maxIter)
    (hn : 1 ≤ (splitForFit hp rng X y).1.1.length) :
    firstCoefInBounds minC maxC ((fitStochasticCore fw hp rng none X y p0
      (fun Xt yt => batchStep fw minC maxC Xt yt)).1.params) = true := by
  obtain ⟨m, hm⟩ : ∃ m, hp.maxIter = m + 1 := ⟨hp.maxIter - 1, by omega⟩
  show firstCoefInBounds minC maxC (afterLoop hp (coreLoop fw hp rng none X y p0
    (fun Xt yt => batchStep fw minC maxC Xt yt))).params = true
  rw [afterLoop_params]
  have hloop : InvP minC maxC hp.earlyStopping
      (coreLoop fw hp rng none X y p0 (fun Xt yt => batchStep fw minC maxC Xt yt)).1 := by
    show InvP minC maxC hp.earlyStopping
      ((runEpochs (epochStep fw hp hp.earlyStopping
          (batchStep fw minC maxC (splitForFit hp rng X y).1.1 (splitForFit hp rng X y).1.2)
          (splitForFit hp rng X y).1.1.length
          (computeBatchSize hp.batchSize (splitForFit hp rng X y).1.1.length).1
          (splitForFit hp rng X y).2)
        none hp.maxIter 0
        (initState fw p0
          (computeBatchSize hp.batchSize (splitForFit hp rng X y).1.1.length).2)).1)
    rw [hm]
    simp only [runEpochs]
    rw [if_neg (by simp)]
    have hfirst : InvP minC maxC hp.earlyStopping
        ((epochStep fw hp hp.earlyStopping
          (batchStep fw minC maxC (splitForFit hp rng X y).1.1 (splitForFit hp rng X y).1.2)
          (splitForFit hp rng X y).1.1.length
          (computeBatchSize hp.batchSize (splitForFit hp rng X y).1.1.length).1
          (splitForFit hp rng X y).2)
          (initState fw p0
            (computeBatchSize hp.batchSize (splitForFit hp rng X y).1.1.length).2)).1 :=
      epochStep_inv_establish fw hp hp.earlyStopping minC maxC _ _ _ _ _ hb hn _ rfl
    by_cases hb2 : (epochStep fw hp hp.earlyStopping
        (batchStep fw minC maxC (splitForFit hp rng X y).1.1 (splitForFit hp rng X y).1.2)
        (splitForFit hp rng X y).1.1.length
        (computeBatchSize hp.batchSize (splitForFit hp rng X y).1.1.length).1
        (splitForFit hp rng X y).2
        (initState fw p0
          (computeBatchSize hp.batchSize (splitForFit hp rng X y).1.1.length).2)).2
    · simpa [hb2] using hfirst
    · simp only [hb2, Bool.false_eq_true, if_false]
      exact runEpochs_inv minC maxC hp.earlyStopping _ none
        (fun st hst => epochStep_inv_preserve fw hp hp.earlyStopping minC maxC _ _ _ _ _
          hb hn st hst) m 1 _ hfirst
  rcases hloop with ⟨hparams, hbest⟩
  split
  · exact hbest (by assumption)
  · exact hparams

/-- C1: the clipping step establishes, after every mini-batch optimizer
update, that each row `i` of the first weight matrix lies in
`[min_coef[i], max_coef[i]]` (for ordered bound vectors); consequently an
uninterrupted fit that trains at least one epoch on at least one sample
returns first-layer weights within the bounds — in particular with
`min_coef = 0` for all features the returned first-layer weights are all
nonnegative. -/
theorem C1_first_layer_weights_in_bounds (O : Type) (fw : Framework O)
    (hp : HyperParams) (rng : Nat) (X y : List Row) (minC maxC : List Val)
    (hb : boundsOk minC maxC = true) (hmax : 1 ≤ hp.maxIter)
    (hn : 1 ≤ (splitForFit hp rng X y).1.1.length) :
    (∀ (Xt yt : List Row) (st : BatchState O) (sl : Nat × Nat),
      firstCoefInBounds minC maxC ((batchStep fw minC maxC Xt yt st sl).2.2) = true) ∧
    ∀ p : ParamsP,
      ((fit fw hp rng none X y (some minC) (some maxC)).toOption.map
          (fun r => r.params)) = some p →
      firstCoefInBounds minC maxC p = true := by
  refine ⟨fun Xt yt st sl => batchStep_inBounds fw minC maxC Xt yt hb st sl, ?_⟩
  intro p hpeq
  by_cases h1 : minC.length = (X.headD []).length
  · by_cases h2 : maxC.length = (X.headD []).length
    · simp only [fit, verifyCoef] at hpeq
      rw [if_pos h1, if_pos h2] at hpeq
      by_cases h3 : hp.hiddenLayerSizes.any (fun h => decide (h ≤ 0)) = true
      · simp only [constrainedFit] at hpeq
        rw [if_pos h3] at hpeq
        simp [Except.toOption] at hpeq
      · by_cases h4 : paramsFinite ((fitStochasticCore fw hp rng none X y
            (fw.initParams hp.randomState (layerUnitsOf hp X y))
            (fun Xt yt => batchStep fw minC maxC Xt yt)).1.params) = true
        · simp only [constrainedFit] at hpeq
          rw [if_neg h3, if_pos h4] at hpeq
          simp only [Except.toOption, Option.map] at hpeq
          obtain rfl : (fitStochasticCore fw hp rng none X y
              (fw.initParams hp.randomState (layerUnitsOf hp X y))
              (fun Xt yt => batchStep fw minC maxC Xt yt)).1.params = p := by
            simpa using hpeq
          exact fitCore_params_inBounds fw hp rng X y _ minC maxC hb hmax hn
        · simp only [constrainedFit] at hpeq
          rw [if_neg h3, if_neg h4] at hpeq
          simp [Except.toOption] at hpeq
    · simp only [fit, verifyCoef] at hpeq
      rw [if_pos h1, if_neg h2] at hpeq
      simp [Except.toOption] at hpeq
  · simp only [fit, verifyCoef] at hpeq
    rw [if_neg h1] at hpeq
    simp [Except.toOption] at hpeq

theorem C1_witness :
    boundsOk [qv 0] [qv 5] = true ∧ 1 ≤ demoHp.maxIter ∧
    1 ≤ (splitForFit demoHp 0 [[qv 1]] [[qv 1]]).1.1.length ∧
    ((fit demoFw demoHp 0 none [[qv 1]] [[qv 1]] (some [qv 0]) (some [qv 5])).toOption.map
        (fun r => r.params)) =
      some { coefs := [[[qv 0]]], intercepts := [[qv 0]] } ∧
    firstCoefInBounds [qv 0] [qv 5]
      { coefs := [[[qv 0]]], intercepts := [[qv 0]] } = true := by
  have h4 : ((fit demoFw demoHp 0 none [[qv 1]] [[qv 1]] (some [qv 0])
      (some [qv 5])).toOption.map (fun r => r.params)) =
      some { coefs := [[[qv 0]]], intercepts := [[qv 0]] } := by decide
  exact ⟨by decide, by decide, by decide, h4,
    (C1_first_layer_weights_in_bounds Unit demoFw demoHp 0 [[qv 1]] [[qv 1]]
      [qv 0] [qv 5] (by decide) (by decide) (by decide)).2
      { coefs := [[[qv 0]]], intercepts := [[qv 0]] } h4⟩

end CMLP
